import Mathlib

set_option maxRecDepth 4000

/-!
Shallow embedding of the claude-modes core: the tool-permission matcher
(permission-checker), the transition engine (transition / mcp-tools), the
state store and status operations, and the structural validation of the
workflow configuration (config-loader). Definitions translate the
TypeScript sources; file I/O is represented by an explicit file-content
value, and the wall-clock timestamp is threaded as a parameter.
-/

/-! ## Data model (types.ts) -/

/-- A declared edge of the mode graph: `ModeTransition` of types.ts. -/
structure ModeTransition where
  «to» : String
  constraint : String
deriving DecidableEq, Repr

/-- Per-mode configuration: `ModeConfig` of types.ts. -/
structure ModeConfig where
  name : String
  transitions : List ModeTransition
deriving DecidableEq, Repr

/-- The validated workflow: `WorkflowConfig` of types.ts. The `states`
object is embedded as an association list keyed by mode id. -/
structure WorkflowConfig where
  initial : String
  states : List (String × ModeConfig)
deriving DecidableEq, Repr

/-- Allow/deny rule lists: `ModePermissions` of types.ts. -/
structure ModePermissions where
  allow : List String
  deny : List String
deriving DecidableEq, Repr

/-- One audit-history record: `TransitionHistoryEntry` of types.ts. -/
structure TransitionHistoryEntry where
  «from» : String
  «to» : String
  timestamp : String
  explanation : String
deriving DecidableEq, Repr

/-- The persisted state file shape (`StateFile` in transition.ts,
mcp-tools.ts, server.ts, status.ts). -/
structure StateFile where
  currentMode : String
  history : List TransitionHistoryEntry
deriving DecidableEq, Repr

/-- The untyped per-tool argument payload (`tool_input`): the three
arguments the matcher ever reads, each possibly absent. -/
structure ToolInput where
  file_path : Option String := none
  command : Option String := none
  url : Option String := none
deriving DecidableEq, Repr

/-- `ToolCheckInput` of types.ts. -/
structure ToolCheckInput where
  tool_name : String
  tool_input : ToolInput
deriving DecidableEq, Repr

/-- The three-valued outcome of a permission check. -/
inductive Decision where
  | allow
  | deny
  | pass
deriving DecidableEq, Repr

/-- `ToolCheckResult` of types.ts. -/
structure ToolCheckResult where
  decision : Decision
  reason : Option String := none
deriving DecidableEq, Repr

/-- JavaScript truthiness of an optional string argument: `undefined` and
the empty string are both falsy (`if (!filePath) return false`). -/
def truthy (s : Option String) : Option String :=
  match s with
  | none => none
  | some v => if v = "" then none else some v

/-! ## Character-list models of the JavaScript string methods

The TypeScript sources use the platform string methods; these helpers give
them kernel-computable definitions over the character list of a `String`. -/

/-- JS `s.startsWith(pre)`. -/
def strStartsWith (s pre : String) : Bool := pre.data.isPrefixOf s.data

/-- JS `s.endsWith(suf)`. -/
def strEndsWith (s suf : String) : Bool := suf.data.isSuffixOf s.data

/-- JS `s.slice(n)` for a non-negative character index `n`. -/
def strDrop (s : String) (n : Nat) : String := String.mk (s.data.drop n)

/-- JS `s.slice(0, -n)`: the string without its last `n` characters. -/
def strDropRight (s : String) (n : Nat) : String :=
  String.mk (s.data.take (s.data.length - n))

/-- A whitespace character as JS `trim` removes (ASCII subset). -/
def isJsSpace (c : Char) : Bool :=
  c == ' ' || c == '\t' || c == '\n' || c == '\r' || c == '\x0b' || c == '\x0c'

/-- JS `s.trim()`. -/
def strTrim (s : String) : String :=
  String.mk (((s.data.dropWhile isJsSpace).reverse.dropWhile isJsSpace).reverse)

/-- The blank-argument test of transition.ts:
`!s || s.trim() === ""` collapses to the trimmed string being empty. -/
def isBlank (s : String) : Bool := strTrim s == ""

/-! ## Permission matcher (permission-checker.ts) -/

/-- Tools that use file path glob matching (`FILE_PATTERN_TOOLS`). -/
def FILE_PATTERN_TOOLS : List String :=
  ["Read", "Write", "Edit", "Glob", "NotebookRead", "NotebookEdit"]

/-- Tools that use command prefix matching (`BASH_PREFIX_TOOLS`). -/
def BASH_PREFIX_TOOLS : List String := ["Bash"]

/-- Tools that use domain matching (`DOMAIN_TOOLS`). -/
def DOMAIN_TOOLS : List String := ["WebFetch"]

/-- A character of the regex class `\w`: ASCII letters, digits, underscore. -/
def isWordChar (c : Char) : Bool := c.isAlphanum || c == '_'

/-- A character the regex metacharacter `.` matches in JavaScript: anything
but a line terminator. -/
def isDotChar (c : Char) : Bool :=
  !(c == '\n' || c == '\r' || c.val == 0x2028 || c.val == 0x2029)

/-- Parse a permission rule like `Write(src/x)` into tool name and pattern:
`parseRule` of permission-checker.ts, whose regex is `^(\w+)\((.+)\)$`
(greedy, so the pattern runs to the last closing parenthesis, which must
end the string; `.` excludes line terminators). -/
def parseRule (rule : String) : Option (String × String) :=
  let cs := rule.data
  let tool := cs.takeWhile isWordChar
  if tool.isEmpty then none
  else
    match cs.drop tool.length with
    | '(' :: rest =>
      match rest.getLast? with
      | some ')' =>
        let pat := rest.dropLast
        if pat.isEmpty || !(pat.all isDotChar) then none
        else some (String.mk tool, String.mk pat)
      | _ => none
    | _ => none

/-- Modelled from the spec: the core of the external picomatch library's
glob matcher, which the source calls through `picomatch(pattern)`.
`**` matches any run of characters, `*` and `?` match within one path
segment (never `/`), every other character matches literally. The fuel
argument makes the recursion structural (hence kernel-computable); every
step shrinks the combined length of pattern and text, so
`p.length + t.length + 1` fuel always suffices. -/
def globMatchFuel : Nat → List Char → List Char → Bool
  | 0, _, _ => false
  | _ + 1, [], t => t.isEmpty
  | fuel + 1, '*' :: '*' :: ps, t =>
    globMatchFuel fuel ps t ||
      (match t with
       | [] => false
       | _ :: t2 => globMatchFuel fuel ('*' :: '*' :: ps) t2)
  | fuel + 1, '*' :: ps, t =>
    globMatchFuel fuel ps t ||
      (match t with
       | [] => false
       | c :: t2 => !(c == '/') && globMatchFuel fuel ('*' :: ps) t2)
  | fuel + 1, '?' :: ps, t =>
    (match t with
     | [] => false
     | c :: t2 => !(c == '/') && globMatchFuel fuel ps t2)
  | fuel + 1, c :: ps, t =>
    (match t with
     | [] => false
     | d :: t2 => c == d && globMatchFuel fuel ps t2)

/-- The anchored glob match: the pattern must consume the whole text. -/
def globMatch (p t : List Char) : Bool :=
  globMatchFuel (p.length + t.length + 1) p t

/-- Modelled from the spec: picomatch's `contains: true` option drops the
anchors, so the glob may match any substring of the text. -/
def globContains (p t : List Char) : Bool :=
  t.tails.any (fun suf => suf.inits.any (fun pre => globMatch p pre))

/-- `matchesGlob` of permission-checker.ts: the pattern is matched with
contains semantics against the file path. -/
def matchesGlob (filePath pattern : String) : Bool :=
  globContains pattern.data filePath.data

/-- `matchesPrefix` of permission-checker.ts: a pattern ending in `*`
matches any command sharing the literal prefix before it; otherwise the
command must equal the pattern exactly. -/
def matchesPrefix (command pattern : String) : Bool :=
  if strEndsWith pattern "*" then strStartsWith command (strDropRight pattern 1)
  else command == pattern

/-- Modelled from the spec: hostname extraction of the platform URL parser
(`new URL(url).hostname`) for the common `scheme://[user@]host[:port]/...`
form. A missing or empty host is a parse failure; the host is lowercased. -/
def parseHostname (url : String) : Option String :=
  let cs := url.data
  let scheme := cs.takeWhile Char.isAlpha
  if scheme.isEmpty then none
  else
    match cs.drop scheme.length with
    | ':' :: '/' :: '/' :: rest =>
      let authority := rest.takeWhile (fun c => !(c == '/' || c == '?' || c == '#'))
      let host0 := (authority.reverse.takeWhile (fun c => !(c == '@'))).reverse
      let host := host0.takeWhile (fun c => !(c == ':'))
      if host.isEmpty then none
      else some (String.mk (host.map Char.toLower))
    | _ => none

/-- `matchesDomain` of permission-checker.ts: the pattern must carry the
`domain:` tag; a `*.`-prefixed pattern matches when the hostname ends with
the base domain and differs from it, otherwise exact hostname equality.
URL parse failure is a non-match. -/
def matchesDomain (url pattern : String) : Bool :=
  if !(strStartsWith pattern "domain:") then false
  else
    let domainPattern := strDrop pattern 7
    match parseHostname url with
    | none => false
    | some hostname =>
      if strStartsWith domainPattern "*." then
        let baseDomain := strDrop domainPattern 2
        strEndsWith hostname baseDomain && !(hostname == baseDomain)
      else hostname == domainPattern

/-- `matchesRule` of permission-checker.ts: unparsable rules and tool-name
mismatches never match; the strategy is chosen by the tool's category; a
missing (or empty) expected argument is a non-match; an unknown category
is a non-match. -/
def matchesRule (toolName : String) (toolInput : ToolInput) (rule : String) : Bool :=
  match parseRule rule with
  | none => false
  | some (tool, pattern) =>
    if tool ≠ toolName then false
    else if FILE_PATTERN_TOOLS.contains toolName then
      match truthy toolInput.file_path with
      | none => false
      | some filePath => matchesGlob filePath pattern
    else if BASH_PREFIX_TOOLS.contains toolName then
      match truthy toolInput.command with
      | none => false
      | some command => matchesPrefix command pattern
    else if DOMAIN_TOOLS.contains toolName then
      match truthy toolInput.url with
      | none => false
      | some url => matchesDomain url pattern
    else false

/-- Whether the tool belongs to one of the three recognized categories
(the `isKnownTool` test inside `checkToolPermission`). -/
def isKnownTool (toolName : String) : Bool :=
  FILE_PATTERN_TOOLS.contains toolName ||
    BASH_PREFIX_TOOLS.contains toolName ||
      DOMAIN_TOOLS.contains toolName

/-- `checkToolPermission` of permission-checker.ts: pass without
permissions or for unknown tools; otherwise deny rules are scanned first
and the first match decides deny; then allow rules; otherwise pass. -/
def checkToolPermission (input : ToolCheckInput)
    (permissions : Option ModePermissions) : ToolCheckResult :=
  match permissions with
  | none => { decision := Decision.pass }
  | some perms =>
    if !(isKnownTool input.tool_name) then { decision := Decision.pass }
    else
      match perms.deny.find? (fun rule => matchesRule input.tool_name input.tool_input rule) with
      | some rule =>
        { decision := Decision.deny, reason := some ("Blocked by deny rule: " ++ rule) }
      | none =>
        match perms.allow.find? (fun rule => matchesRule input.tool_name input.tool_input rule) with
        | some _ => { decision := Decision.allow }
        | none => { decision := Decision.pass }

/-- Format the permission result as a PreToolUse hook response:
`formatHookResponse` of permission-checker.ts. A pass carries no
hook-specific output. -/
structure HookResponse where
  permissionDecision : Option Decision := none
  permissionDecisionReason : Option String := none
deriving DecidableEq, Repr

/-- `formatHookResponse` of permission-checker.ts. -/
def formatHookResponse (result : ToolCheckResult) : HookResponse :=
  match result.decision with
  | Decision.pass => {}
  | d => { permissionDecision := some d, permissionDecisionReason := result.reason }

/-! ## State store (readState / writeState)

The persisted file is embedded as an explicit value: it is absent, holds
unparsable content (`JSON.parse` would throw with the given message), or
holds a parsed `StateFile`. A write replaces the content with the valid
new state (the atomic temp-file-plus-rename of `writeState`). -/

/-- The observable content of the state file. -/
inductive FileContent where
  | absent
  | corrupt (msg : String)
  | valid (s : StateFile)
deriving DecidableEq, Repr

/-- `readState` of transition.ts and mcp-tools.ts: a missing file yields
the default state; content that does not parse propagates the parse error
(`JSON.parse` throws); parsed content is returned as-is. -/
def readState (content : FileContent) (initialMode : String) : Except String StateFile :=
  match content with
  | FileContent.absent => Except.ok { currentMode := initialMode, history := [] }
  | FileContent.corrupt msg => Except.error msg
  | FileContent.valid s => Except.ok s

/-! ## Transition engine (transition.ts, mcp-tools.ts) -/

/-- `TransitionInput` of types.ts. -/
structure TransitionInput where
  target_state : String
  explanation : String
deriving DecidableEq, Repr

/-- `TransitionResult` of types.ts. -/
inductive TransitionResult where
  | ok (new_state : String)
  | fail (reason : String)
deriving DecidableEq, Repr

/-- `ForceTransitionInput` of mcp-tools.ts. -/
structure ForceTransitionInput where
  target_mode : String
deriving DecidableEq, Repr

/-- `ForceTransitionResult` of mcp-tools.ts. -/
inductive ForceTransitionResult where
  | ok (new_mode : String)
  | fail (reason : String)
deriving DecidableEq, Repr

/-- `executeTransition` of transition.ts, with the file content passed in
and the written content returned alongside the result (the second
component equals the input content whenever nothing was written). `now`
stands for `new Date().toISOString()`. -/
def executeTransition (input : TransitionInput) (content : FileContent)
    (config : WorkflowConfig) (now : String) : TransitionResult × FileContent :=
  if isBlank input.target_state then
    (TransitionResult.fail "target_state is required", content)
  else if isBlank input.explanation then
    (TransitionResult.fail "explanation is required", content)
  else
    match config.states.lookup input.target_state with
    | none =>
      (TransitionResult.fail ("Mode '" ++ input.target_state ++ "' does not exist"), content)
    | some _ =>
      match readState content config.initial with
      | Except.error msg =>
        (TransitionResult.fail ("Failed to read state: " ++ msg), content)
      | Except.ok state =>
        if state.currentMode == input.target_state then
          (TransitionResult.fail ("Already in mode '" ++ input.target_state ++ "'"), content)
        else
          let allowedTransitions :=
            ((config.states.lookup state.currentMode).map ModeConfig.transitions).getD []
          if allowedTransitions.any (fun t => t.to == input.target_state) then
            (TransitionResult.ok input.target_state,
             FileContent.valid
               { currentMode := input.target_state,
                 history := state.history ++
                   [{ «from» := state.currentMode, «to» := input.target_state,
                      timestamp := now, explanation := input.explanation }] })
          else
            (TransitionResult.fail ("Transition from '" ++ state.currentMode ++ "' to '" ++
              input.target_state ++ "' is not allowed"), content)

/-- `modeForceTransition` of mcp-tools.ts: existence and non-identity
checks only, then the same history-append and write with the fixed
explanation `"Forced transition"`. -/
def modeForceTransition (input : ForceTransitionInput) (content : FileContent)
    (config : WorkflowConfig) (now : String) : ForceTransitionResult × FileContent :=
  match config.states.lookup input.target_mode with
  | none =>
    (ForceTransitionResult.fail ("Mode '" ++ input.target_mode ++ "' does not exist"), content)
  | some _ =>
    match readState content config.initial with
    | Except.error msg =>
      (ForceTransitionResult.fail ("Failed to read state: " ++ msg), content)
    | Except.ok state =>
      if state.currentMode == input.target_mode then
        (ForceTransitionResult.fail ("Already in mode '" ++ input.target_mode ++ "'"), content)
      else
        (ForceTransitionResult.ok input.target_mode,
         FileContent.valid
           { currentMode := input.target_mode,
             history := state.history ++
               [{ «from» := state.currentMode, «to» := input.target_mode,
                  timestamp := now, explanation := "Forced transition" }] })

/-! ## Status operations (mcp-tools.ts, status.ts, server.ts) -/

/-- `ModeStatusResult` of mcp-tools.ts. -/
structure ModeStatusResult where
  current_mode : String
  available_transitions : List ModeTransition
  history : List TransitionHistoryEntry
  error : Option String := none
deriving DecidableEq, Repr

/-- `modeStatus` of mcp-tools.ts: on a read failure the error is carried
in the result; otherwise current mode, its declared transitions and the
full stored history are returned. -/
def modeStatus (content : FileContent) (config : WorkflowConfig) : ModeStatusResult :=
  match readState content config.initial with
  | Except.error msg =>
    { current_mode := config.initial, available_transitions := [], history := [],
      error := some ("Failed to read state: " ++ msg) }
  | Except.ok state =>
    { current_mode := state.currentMode,
      available_transitions :=
        ((config.states.lookup state.currentMode).map ModeConfig.transitions).getD [],
      history := state.history }

/-- `ModeStatus` of types.ts (the status endpoint shape). -/
structure ModeStatus where
  currentMode : String
  initialMode : String
  lastTransition : Option String
  transitionHistory : List TransitionHistoryEntry
  availableTransitions : List ModeTransition
deriving DecidableEq, Repr

/-- `StatusResult` of status.ts: a status or a distinguishable error. -/
inductive StatusResult where
  | ok (s : ModeStatus)
  | err (error : String) (details : String)
deriving DecidableEq, Repr

/-- `getStatus` of status.ts: a parse failure is returned as an error
result; otherwise the history is capped at the last 10 entries
(`history.slice(-10)`), and `lastTransition` is the last entry's
timestamp (`|| null` makes an empty timestamp null as well). -/
def getStatus (content : FileContent) (initialMode : String) : StatusResult :=
  match readState content initialMode with
  | Except.error msg => StatusResult.err "Failed to read state file" msg
  | Except.ok state =>
    StatusResult.ok
      { currentMode := state.currentMode,
        initialMode := initialMode,
        lastTransition := truthy (state.history.getLast?.map TransitionHistoryEntry.timestamp),
        transitionHistory := state.history.drop (state.history.length - 10),
        availableTransitions := [] }

/-- `readState` inside server.ts (the Unix-socket shell): errors are
swallowed (`catch { /* ignore */ }`) and the default state is returned,
both for a missing file and for unparsable content. -/
def serverReadState (content : FileContent) (config : Option WorkflowConfig) : StateFile :=
  match config with
  | none => { currentMode := "idle", history := [] }
  | some cfg =>
    match content with
    | FileContent.valid s => s
    | _ => { currentMode := cfg.initial, history := [] }

/-- `getStatus` inside server.ts: built on `serverReadState`, so a
corrupted file produces a plain default status with no error marker. -/
def serverGetStatus (content : FileContent) (config : Option WorkflowConfig) : ModeStatus :=
  let state := serverReadState content config
  { currentMode := state.currentMode,
    initialMode := (truthy (config.map WorkflowConfig.initial)).getD "idle",
    lastTransition := truthy (state.history.getLast?.map TransitionHistoryEntry.timestamp),
    transitionHistory := state.history.drop (state.history.length - 10),
    availableTransitions :=
      ((config.bind (fun c => c.states.lookup state.currentMode)).map
        ModeConfig.transitions).getD [] }

/-! ## Config loader (config-loader.ts)

`loadModesYaml` is embedded from the point after `YAML.parse`: the parsed
document is a value of `ModesDoc`, with `none` standing for a missing or
wrongly-typed field (`typeof doc.name !== "string"` and the like), and the
validation steps follow the source in order. File-system access and YAML
syntax errors happen before this point and are not modelled. -/

/-- One element of a mode's raw `transitions` array: a non-object entry is
skipped by the loader (`continue`); an object entry has `to` and
`constraint` fields that are either strings or missing/non-strings. -/
inductive RawTransItem where
  | nonObj
  | obj («to» : Option String) (constraint : Option String)
deriving DecidableEq, Repr

/-- A mode's raw value in the parsed document; `transitions` is `none`
when absent or not an array. -/
structure RawMode where
  transitions : Option (List RawTransItem) := none
deriving DecidableEq, Repr

/-- The parsed modes.yaml document. -/
structure ModesDoc where
  name : Option String := none
  default : Option String := none
  modes : Option (List (String × RawMode)) := none
deriving DecidableEq, Repr

/-- The transition-parsing loop of `loadModesYaml` for one mode: skips
non-object entries, fails on a missing `to`, then on a missing
`constraint`, and trims the constraint of an accepted entry. -/
def parseTransitions (modeName : String) : List RawTransItem → Except String (List ModeTransition)
  | [] => Except.ok []
  | RawTransItem.nonObj :: rest => parseTransitions modeName rest
  | RawTransItem.obj none _ :: _ =>
    Except.error ("Invalid transition in mode '" ++ modeName ++ "': missing 'to' field")
  | RawTransItem.obj (some _) none :: _ =>
    Except.error ("Invalid transition in mode '" ++ modeName ++ "': missing 'constraint' field")
  | RawTransItem.obj (some target) (some c) :: rest =>
    match parseTransitions modeName rest with
    | Except.error e => Except.error e
    | Except.ok ts => Except.ok ({ «to» := target, constraint := strTrim c } :: ts)

/-- The mode-parsing loop of `loadModesYaml`: builds the `states` map in
document order, stopping at the first invalid transition. -/
def parseStates : List (String × RawMode) → Except String (List (String × ModeConfig))
  | [] => Except.ok []
  | (modeName, modeData) :: rest =>
    match parseTransitions modeName (modeData.transitions.getD []) with
    | Except.error e => Except.error e
    | Except.ok ts =>
      match parseStates rest with
      | Except.error e => Except.error e
      | Except.ok others => Except.ok ((modeName, { name := modeName, transitions := ts }) :: others)

/-- The referential check of `loadModesYaml`: every transition target must
be a key of the states map. -/
def checkTargets (states : List (String × ModeConfig)) :
    List (String × ModeConfig) → Except String Unit
  | [] => Except.ok ()
  | (modeName, mc) :: rest =>
    match mc.transitions.find? (fun t => (states.lookup t.to).isNone) with
    | some t =>
      Except.error ("Transition from '" ++ modeName ++ "' references non-existent mode '" ++
        t.to ++ "'")
    | none => checkTargets states rest

/-- The structural validation of `loadModesYaml` (config-loader.ts, from
the typed-field checks through the transition-target check): required
fields, the default mode's existence, per-mode transition parsing, and
the referential check, in source order. -/
def validateModes (doc : ModesDoc) : Except String WorkflowConfig :=
  match doc.name with
  | none => Except.error "modes.yaml missing required field: name"
  | some _ =>
    match doc.default with
    | none => Except.error "modes.yaml missing required field: default"
    | some dflt =>
      match doc.modes with
      | none => Except.error "modes.yaml missing required field: modes"
      | some modesObj =>
        if (modesObj.map Prod.fst).contains dflt then
          match parseStates modesObj with
          | Except.error e => Except.error e
          | Except.ok states =>
            match checkTargets states states with
            | Except.error e => Except.error e
            | Except.ok _ => Except.ok { initial := dflt, states := states }
        else
          Except.error ("default mode '" ++ dflt ++ "' does not exist in modes")

/-! ## Concrete fixtures used by witnesses and counterexamples -/

/-- The three-mode TDD workflow used throughout the repository's tests. -/
def cfgTdd : WorkflowConfig :=
  { initial := "idle",
    states :=
      [("idle", { name := "idle",
                  transitions := [{ «to» := "test-dev", constraint := "User described a bug" }] }),
       ("test-dev", { name := "test-dev",
                      transitions := [{ «to» := "feature-dev", constraint := "Test is failing" },
                                      { «to» := "idle", constraint := "User cancelled" }] }),
       ("feature-dev", { name := "feature-dev",
                         transitions := [{ «to» := "idle", constraint := "Tests pass" }] })] }

/-- A history entry for fixtures. -/
def entryFix : TransitionHistoryEntry :=
  { «from» := "idle", «to» := "test-dev",
    timestamp := "2024-01-15T10:00:00.000Z", explanation := "Started TDD" }

/-- Eleven stored history entries: more than the display cap. -/
def hist11 : List TransitionHistoryEntry := List.replicate 11 entryFix

/-- A parsed document whose one transition carries a whitespace-only
constraint. -/
def blankConstraintDoc : ModesDoc :=
  { name := some "tdd", default := some "idle",
    modes := some
      [("idle", { transitions := some [RawTransItem.obj (some "idle") (some "   ")] })] }

/-- A well-formed parsed document matching `cfgTdd`. -/
def tddDoc : ModesDoc :=
  { name := some "tdd", default := some "idle",
    modes := some
      [("idle",
        { transitions := some [RawTransItem.obj (some "test-dev") (some "User described a bug")] }),
       ("test-dev",
        { transitions := some [RawTransItem.obj (some "feature-dev") (some "Test is failing"),
                               RawTransItem.obj (some "idle") (some "User cancelled")] }),
       ("feature-dev",
        { transitions := some [RawTransItem.obj (some "idle") (some "Tests pass")] })] }

/-! ## Lemmas about the permission matcher -/

/-- A rule that matches parses. -/
theorem matchesRule_parses {t : String} {i : ToolInput} {r : String}
    (h : matchesRule t i r = true) : (parseRule r).isSome = true := by
  unfold matchesRule at h
  cases hp : parseRule r with
  | none => rw [hp] at h; exact absurd h (by simp)
  | some pr => rfl

/-- A rule only ever matches a tool of one of the three categories. -/
theorem matchesRule_known {t : String} {i : ToolInput} {r : String}
    (h : matchesRule t i r = true) : isKnownTool t = true := by
  unfold matchesRule at h
  unfold isKnownTool
  cases hp : parseRule r with
  | none => rw [hp] at h; exact absurd h (by simp)
  | some pr =>
    obtain ⟨tool, pattern⟩ := pr
    rw [hp] at h
    simp only at h
    split at h
    · exact absurd h (by simp)
    · split at h
      · rename_i hf
        exact (by simp; exact Or.inl (Or.inl (by simpa using hf)))
      · split at h
        · rename_i hb
          exact (by simp; exact Or.inl (Or.inr (by simpa using hb)))
        · split at h
          · rename_i hd
            exact (by simp; exact Or.inr (by simpa using hd))
          · exact absurd h (by simp)

/-- Filtering a list by a weaker predicate does not change `find?`. -/
theorem find?_filter_eq {α : Type} (p q : α → Bool) (l : List α)
    (hpq : ∀ a, p a = true → q a = true) :
    (l.filter q).find? p = l.find? p := by
  induction l with
  | nil => rfl
  | cons a rest ih =>
    by_cases hq : q a = true
    · rw [List.filter_cons_of_pos hq]
      by_cases hp : p a = true
      · rw [List.find?_cons_of_pos _ hp, List.find?_cons_of_pos _ hp]
      · rw [List.find?_cons_of_neg _ hp, List.find?_cons_of_neg _ hp, ih]
    · have hp : ¬ p a = true := fun hpa => hq (hpq a hpa)
      rw [List.filter_cons_of_neg (by simpa using hq), List.find?_cons_of_neg _ hp, ih]

/-- Claim C1: deny rules are evaluated before allow rules; any matching
deny rule decides deny even when allow rules also match, and allow is
returned exactly when no deny rule matches and some allow rule does. -/
theorem checkToolPermission_deny_precedence :
    ∀ (input : ToolCheckInput) (perms : ModePermissions),
      ((∃ r ∈ perms.deny, matchesRule input.tool_name input.tool_input r = true) →
        (checkToolPermission input (some perms)).decision = Decision.deny) ∧
      ((checkToolPermission input (some perms)).decision = Decision.allow ↔
        ((∀ r ∈ perms.deny, matchesRule input.tool_name input.tool_input r = false) ∧
          ∃ r ∈ perms.allow, matchesRule input.tool_name input.tool_input r = true)) := by
  intro input perms
  unfold checkToolPermission
  by_cases hk : isKnownTool input.tool_name = true
  · simp only [hk, Bool.not_true, Bool.false_eq_true, if_false]
    cases hd : perms.deny.find? (fun rule => matchesRule input.tool_name input.tool_input rule) with
    | some r =>
      have hr : matchesRule input.tool_name input.tool_input r = true := List.find?_some hd
      have hmem : r ∈ perms.deny := List.mem_of_find?_eq_some hd
      refine ⟨fun _ => rfl, ?_⟩
      simp only [iff_iff_implies_and_implies]
      constructor
      · intro habs; exact absurd habs (by simp)
      · rintro ⟨hall, -⟩
        exact absurd (hall r hmem) (by simp [hr])
    | none =>
      have hno : ∀ r ∈ perms.deny, ¬ matchesRule input.tool_name input.tool_input r = true :=
        List.find?_eq_none.mp hd
      refine ⟨fun ⟨r, hmem, hr⟩ => absurd hr (hno r hmem), ?_⟩
      cases ha : perms.allow.find? (fun rule => matchesRule input.tool_name input.tool_input rule) with
      | some r =>
        have hr : matchesRule input.tool_name input.tool_input r = true := List.find?_some ha
        have hmem : r ∈ perms.allow := List.mem_of_find?_eq_some ha
        exact ⟨fun _ => ⟨fun r hm => Bool.eq_false_iff.mpr (hno r hm), r, hmem, hr⟩, fun _ => rfl⟩
      | none =>
        have hnoa : ∀ r ∈ perms.allow, ¬ matchesRule input.tool_name input.tool_input r = true :=
          List.find?_eq_none.mp ha
        constructor
        · intro habs; exact absurd habs (by simp)
        · rintro ⟨-, r, hmem, hr⟩; exact absurd hr (hnoa r hmem)
  · simp only [hk]
    constructor
    · rintro ⟨r, hmem, hr⟩
      exact absurd (matchesRule_known hr) hk
    · constructor
      · intro habs
        exact absurd habs (by simp)
      · rintro ⟨-, r, hmem, hr⟩
        exact absurd (matchesRule_known hr) hk

/-- Witness for C1 at the spec's own example. -/
theorem checkToolPermission_deny_precedence_witness :
    (checkToolPermission ⟨"Write", ⟨some "src/protected/x", none, none⟩⟩
        (some ⟨["Write(src/**)"], ["Write(src/protected/**)"]⟩)).decision = Decision.deny :=
  (checkToolPermission_deny_precedence ⟨"Write", ⟨some "src/protected/x", none, none⟩⟩
      ⟨["Write(src/**)"], ["Write(src/protected/**)"]⟩).1
    ⟨"Write(src/protected/**)", by decide, by decide⟩

/-- Claim C2 (code bug): the `*.` domain wildcard matches by raw string
suffix, so a hostname that merely ends in the base-domain string matches
although it is not a subdomain; strict subdomains match and the exact
base domain does not. -/
theorem matchesDomain_wildcard_suffix_bug :
    matchesDomain "https://evilgithub.com/x" "domain:*.github.com" = true ∧
    matchesDomain "https://api.github.com/x" "domain:*.github.com" = true ∧
    matchesDomain "https://github.com/x" "domain:*.github.com" = false :=
  ⟨by decide, by decide, by decide⟩

/-- Claim C9: unparsable rules, unknown tool categories and missing
expected arguments are silent non-matches, and removing the unparsable
rules from a rule set never changes the decision. -/
theorem matchesRule_malformed_silent :
    ∀ (t : String) (i : ToolInput) (r : String) (input : ToolCheckInput) (p : ModePermissions),
      (parseRule r = none → matchesRule t i r = false) ∧
      (isKnownTool t = false → matchesRule t i r = false) ∧
      (FILE_PATTERN_TOOLS.contains t = true → truthy i.file_path = none →
        matchesRule t i r = false) ∧
      (BASH_PREFIX_TOOLS.contains t = true → truthy i.command = none →
        matchesRule t i r = false) ∧
      (DOMAIN_TOOLS.contains t = true → truthy i.url = none →
        matchesRule t i r = false) ∧
      checkToolPermission input (some p) =
        checkToolPermission input
          (some { allow := p.allow.filter (fun rule => (parseRule rule).isSome),
                  deny := p.deny.filter (fun rule => (parseRule rule).isSome) }) := by
  intro t i r input p
  refine ⟨fun hp => ?_, fun hk => ?_, fun hf htr => ?_, fun hb htr => ?_, fun hd htr => ?_, ?_⟩
  · unfold matchesRule
    rw [hp]
  · cases hmr : matchesRule t i r with
    | false => rfl
    | true => exact absurd (matchesRule_known hmr) (by simp [hk])
  · unfold matchesRule
    cases hp : parseRule r with
    | none => rfl
    | some pr =>
      obtain ⟨tool, pattern⟩ := pr
      simp only
      split
      · rfl
      · simp only [hf, if_true, htr]
  · have ht : t = "Bash" := by
      have : t ∈ BASH_PREFIX_TOOLS := by simpa using hb
      simpa [BASH_PREFIX_TOOLS] using this
    subst ht
    unfold matchesRule
    cases hp : parseRule r with
    | none => rfl
    | some pr =>
      obtain ⟨tool, pattern⟩ := pr
      simp only
      split
      · rfl
      · simp only [show FILE_PATTERN_TOOLS.contains "Bash" = false from by decide,
          Bool.false_eq_true, if_false,
          show BASH_PREFIX_TOOLS.contains "Bash" = true from by decide, if_true, htr]
  · have ht : t = "WebFetch" := by
      have : t ∈ DOMAIN_TOOLS := by simpa using hd
      simpa [DOMAIN_TOOLS] using this
    subst ht
    unfold matchesRule
    cases hp : parseRule r with
    | none => rfl
    | some pr =>
      obtain ⟨tool, pattern⟩ := pr
      simp only
      split
      · rfl
      · simp only [show FILE_PATTERN_TOOLS.contains "WebFetch" = false from by decide,
          Bool.false_eq_true, if_false,
          show BASH_PREFIX_TOOLS.contains "WebFetch" = false from by decide,
          show DOMAIN_TOOLS.contains "WebFetch" = true from by decide, if_true, htr]
  · unfold checkToolPermission
    dsimp only
    rw [find?_filter_eq (fun rule => matchesRule input.tool_name input.tool_input rule)
        (fun rule => (parseRule rule).isSome) p.deny (fun a ha => matchesRule_parses ha),
      find?_filter_eq (fun rule => matchesRule input.tool_name input.tool_input rule)
        (fun rule => (parseRule rule).isSome) p.allow (fun a ha => matchesRule_parses ha)]

/-- Witness for C9: a malformed rule never matches, and dropping it from
the configured lists leaves the decision unchanged. -/
theorem matchesRule_malformed_silent_witness :
    matchesRule "Bash" ⟨none, none, none⟩ "garbage" = false ∧
    checkToolPermission ⟨"Write", ⟨some "src/a.ts", none, none⟩⟩
        (some ⟨["garbage", "Write(src/**)"], ["oops("]⟩) =
      checkToolPermission ⟨"Write", ⟨some "src/a.ts", none, none⟩⟩
        (some ⟨["Write(src/**)"], []⟩) :=
  ⟨(matchesRule_malformed_silent "Bash" ⟨none, none, none⟩ "garbage"
      ⟨"Write", ⟨some "src/a.ts", none, none⟩⟩ ⟨["garbage", "Write(src/**)"], ["oops("]⟩).1
    (by decide),
   ((matchesRule_malformed_silent "Bash" ⟨none, none, none⟩ "garbage"
      ⟨"Write", ⟨some "src/a.ts", none, none⟩⟩
      ⟨["garbage", "Write(src/**)"], ["oops("]⟩).2.2.2.2.2).trans (by decide)⟩

/-- Claim C3: the constrained transition succeeds exactly when both
arguments are non-blank, the target is configured, differs from the
current mode and is a declared outgoing edge; on success exactly one
entry is appended and the current mode becomes the target; the same-mode
failure reports already-in-mode, so an immediate repeat of a successful
call fails that way. -/
theorem executeTransition_spec :
    ∀ (config : WorkflowConfig) (s : StateFile) (input : TransitionInput) (now now2 : String),
      ((∃ m, (executeTransition input (FileContent.valid s) config now).1 =
          TransitionResult.ok m) ↔
        (isBlank input.target_state = false ∧ isBlank input.explanation = false ∧
         (config.states.lookup input.target_state).isSome = true ∧
         s.currentMode ≠ input.target_state ∧
         (((config.states.lookup s.currentMode).map ModeConfig.transitions).getD []).any
           (fun t => t.to == input.target_state) = true)) ∧
      (∀ m, (executeTransition input (FileContent.valid s) config now).1 =
          TransitionResult.ok m →
        m = input.target_state ∧
        (executeTransition input (FileContent.valid s) config now).2 =
          FileContent.valid
            { currentMode := input.target_state,
              history := s.history ++
                [{ «from» := s.currentMode, «to» := input.target_state,
                   timestamp := now, explanation := input.explanation }] }) ∧
      (isBlank input.target_state = false → isBlank input.explanation = false →
        (config.states.lookup input.target_state).isSome = true →
        s.currentMode = input.target_state →
        (executeTransition input (FileContent.valid s) config now).1 =
          TransitionResult.fail ("Already in mode '" ++ input.target_state ++ "'")) ∧
      (∀ m, (executeTransition input (FileContent.valid s) config now).1 =
          TransitionResult.ok m →
        (executeTransition input
            (executeTransition input (FileContent.valid s) config now).2 config now2).1 =
          TransitionResult.fail ("Already in mode '" ++ input.target_state ++ "'")) := by
  intro config s input now now2
  cases h1 : isBlank input.target_state with
  | true => simp [executeTransition, h1]
  | false =>
  cases h2 : isBlank input.explanation with
  | true => simp [executeTransition, h1, h2]
  | false =>
  cases hlk : config.states.lookup input.target_state with
  | none => simp [executeTransition, h1, h2, hlk]
  | some mc =>
  cases h3 : s.currentMode == input.target_state with
  | true =>
    have h3' : s.currentMode = input.target_state := by simpa using h3
    simp [executeTransition, readState, h1, h2, hlk, h3, h3']
  | false =>
    have h3' : ¬ s.currentMode = input.target_state := by simpa using h3
    cases hany : (((config.states.lookup s.currentMode).map ModeConfig.transitions).getD []).any
        (fun t => t.to == input.target_state) with
    | false => simp [executeTransition, readState, h1, h2, hlk, h3, h3', hany]
    | true => simp [executeTransition, readState, h1, h2, hlk, h3, h3', hany]

/-- Witness for C3: the scenario of the spec (idle to test-dev on the TDD
config), with the immediate repeat failing as already-in-mode. -/
theorem executeTransition_spec_witness :
    (executeTransition ⟨"test-dev", "bug described"⟩ (FileContent.valid ⟨"idle", []⟩)
        cfgTdd "T1").1 = TransitionResult.ok "test-dev" ∧
    (executeTransition ⟨"test-dev", "bug described"⟩
        (executeTransition ⟨"test-dev", "bug described"⟩ (FileContent.valid ⟨"idle", []⟩)
          cfgTdd "T1").2 cfgTdd "T2").1 =
      TransitionResult.fail "Already in mode 'test-dev'" :=
  ⟨by decide,
   (executeTransition_spec cfgTdd ⟨"idle", []⟩ ⟨"test-dev", "bug described"⟩ "T1" "T2").2.2.2
     "test-dev" (by decide)⟩

/-- Claim C4: the forced transition succeeds exactly when the target is a
configured mode different from the current one — declared edges are
irrelevant — and on success appends the system marker entry and sets the
current mode; unknown and same-mode targets fail with the corresponding
reasons. -/
theorem modeForceTransition_spec :
    ∀ (config : WorkflowConfig) (s : StateFile) (input : ForceTransitionInput) (now : String),
      ((∃ m, (modeForceTransition input (FileContent.valid s) config now).1 =
          ForceTransitionResult.ok m) ↔
        ((config.states.lookup input.target_mode).isSome = true ∧
         s.currentMode ≠ input.target_mode)) ∧
      ((config.states.lookup input.target_mode).isSome = false →
        (modeForceTransition input (FileContent.valid s) config now).1 =
          ForceTransitionResult.fail ("Mode '" ++ input.target_mode ++ "' does not exist")) ∧
      ((config.states.lookup input.target_mode).isSome = true →
        s.currentMode = input.target_mode →
        (modeForceTransition input (FileContent.valid s) config now).1 =
          ForceTransitionResult.fail ("Already in mode '" ++ input.target_mode ++ "'")) ∧
      (∀ m, (modeForceTransition input (FileContent.valid s) config now).1 =
          ForceTransitionResult.ok m →
        m = input.target_mode ∧
        (modeForceTransition input (FileContent.valid s) config now).2 =
          FileContent.valid
            { currentMode := input.target_mode,
              history := s.history ++
                [{ «from» := s.currentMode, «to» := input.target_mode,
                   timestamp := now, explanation := "Forced transition" }] }) := by
  intro config s input now
  cases hlk : config.states.lookup input.target_mode with
  | none => simp [modeForceTransition, hlk]
  | some mc =>
  cases h3 : s.currentMode == input.target_mode with
  | true =>
    have h3' : s.currentMode = input.target_mode := by simpa using h3
    simp [modeForceTransition, readState, hlk, h3, h3']
  | false =>
    have h3' : ¬ s.currentMode = input.target_mode := by simpa using h3
    simp [modeForceTransition, readState, hlk, h3, h3']

/-- Witness for C4: a forced jump from idle straight to feature-dev (no
declared edge) succeeds with the forced marker; repeating it fails. -/
theorem modeForceTransition_spec_witness :
    (modeForceTransition ⟨"feature-dev"⟩ (FileContent.valid ⟨"idle", []⟩) cfgTdd "T1").2 =
      FileContent.valid
        { currentMode := "feature-dev",
          history := [{ «from» := "idle", «to» := "feature-dev",
                        timestamp := "T1", explanation := "Forced transition" }] } ∧
    (modeForceTransition ⟨"feature-dev"⟩
        (FileContent.valid ⟨"feature-dev", []⟩) cfgTdd "T2").1 =
      ForceTransitionResult.fail "Already in mode 'feature-dev'" :=
  ⟨((modeForceTransition_spec cfgTdd ⟨"idle", []⟩ ⟨"feature-dev"⟩ "T1").2.2.2
      "feature-dev" (by decide)).2,
   (modeForceTransition_spec cfgTdd ⟨"feature-dev", []⟩ ⟨"feature-dev"⟩ "T2").2.2.1
     (by decide) rfl⟩

/-- Claim C10: whenever a constrained or forced transition returns a
failure result, the file content is left exactly as it was. -/
theorem transition_failure_preserves_file :
    ∀ (config : WorkflowConfig) (content : FileContent) (input : TransitionInput)
      (finput : ForceTransitionInput) (now : String),
      (∀ reason, (executeTransition input content config now).1 =
          TransitionResult.fail reason →
        (executeTransition input content config now).2 = content) ∧
      (∀ reason, (modeForceTransition finput content config now).1 =
          ForceTransitionResult.fail reason →
        (modeForceTransition finput content config now).2 = content) := by
  intro config content input finput now
  constructor
  · intro reason h
    cases h1 : isBlank input.target_state with
    | true => simp [executeTransition, h1]
    | false =>
    cases h2 : isBlank input.explanation with
    | true => simp [executeTransition, h1, h2]
    | false =>
    cases hlk : config.states.lookup input.target_state with
    | none => simp [executeTransition, h1, h2, hlk]
    | some mc =>
    cases hr : readState content config.initial with
    | error msg => simp [executeTransition, h1, h2, hlk, hr]
    | ok st =>
    cases h3 : st.currentMode == input.target_state with
    | true => simp [executeTransition, h1, h2, hlk, hr, h3]
    | false =>
    cases hany : (((config.states.lookup st.currentMode).map ModeConfig.transitions).getD []).any
        (fun t => t.to == input.target_state) with
    | false => simp [executeTransition, h1, h2, hlk, hr, h3, hany]
    | true => simp [executeTransition, h1, h2, hlk, hr, h3, hany] at h
  · intro reason h
    cases hlk : config.states.lookup finput.target_mode with
    | none => simp [modeForceTransition, hlk]
    | some mc =>
    cases hr : readState content config.initial with
    | error msg => simp [modeForceTransition, hlk, hr]
    | ok st =>
    cases h3 : st.currentMode == finput.target_mode with
    | true => simp [modeForceTransition, hlk, hr, h3]
    | false => simp [modeForceTransition, hlk, hr, h3] at h

/-- Witness for C10: a disallowed-edge failure on the TDD config leaves a
corrupt file and a valid file untouched. -/
theorem transition_failure_preserves_file_witness :
    (executeTransition ⟨"feature-dev", "skip ahead"⟩ (FileContent.valid ⟨"idle", []⟩)
        cfgTdd "T1").2 = FileContent.valid ⟨"idle", []⟩ ∧
    (modeForceTransition ⟨"nope"⟩ (FileContent.corrupt "bad") cfgTdd "T1").2 =
      FileContent.corrupt "bad" :=
  ⟨(transition_failure_preserves_file cfgTdd (FileContent.valid ⟨"idle", []⟩)
      ⟨"feature-dev", "skip ahead"⟩ ⟨"nope"⟩ "T1").1
    "Transition from 'idle' to 'feature-dev' is not allowed" (by decide),
   (transition_failure_preserves_file cfgTdd (FileContent.corrupt "bad")
      ⟨"feature-dev", "skip ahead"⟩ ⟨"nope"⟩ "T1").2
    "Mode 'nope' does not exist" (by decide)⟩

/-- Claim C5 (amended): the standalone status operation caps the returned
history at the 10 most recent stored entries, in their stored order (the
returned list is a suffix of the stored history and is the whole history
when at most 10 entries are stored). -/
theorem getStatus_history_cap :
    ∀ (s : StateFile) (initialMode : String),
      getStatus (FileContent.valid s) initialMode =
        StatusResult.ok
          { currentMode := s.currentMode, initialMode := initialMode,
            lastTransition :=
              truthy (s.history.getLast?.map TransitionHistoryEntry.timestamp),
            transitionHistory := s.history.drop (s.history.length - 10),
            availableTransitions := [] } ∧
      (s.history.drop (s.history.length - 10)).length ≤ 10 ∧
      s.history.drop (s.history.length - 10) <:+ s.history ∧
      (s.history.length ≤ 10 → s.history.drop (s.history.length - 10) = s.history) := by
  intro s initialMode
  refine ⟨rfl, ?_, List.drop_suffix _ _, fun hle => ?_⟩
  · rw [List.length_drop]
    omega
  · rw [Nat.sub_eq_zero_of_le hle, List.drop_zero]

/-- Counterexample for C5 as stated: the MCP status tool returns the
entire stored history — eleven entries here — with no cap. -/
theorem modeStatus_returns_full_history :
    ¬ (modeStatus (FileContent.valid ⟨"idle", hist11⟩) cfgTdd).history.length ≤ 10 := by
  decide

/-- Claim C6 (amended): the transition-path read and the standalone and
MCP status operations surface unparsable state as a typed error, while
the Unix-socket server's read silently falls back to the default state. -/
theorem corruption_surfaced_not_defaulted :
    ∀ (msg initialMode : String) (config : WorkflowConfig),
      readState (FileContent.corrupt msg) initialMode = Except.error msg ∧
      getStatus (FileContent.corrupt msg) initialMode =
        StatusResult.err "Failed to read state file" msg ∧
      (modeStatus (FileContent.corrupt msg) config).error =
        some ("Failed to read state: " ++ msg) ∧
      serverReadState (FileContent.corrupt msg) (some config) =
        { currentMode := config.initial, history := [] } :=
  fun _ _ _ => ⟨rfl, rfl, rfl, rfl⟩

/-- Counterexample for C6 as stated: the Unix-socket server's status on a
corrupted state file equals the plain default status of a fresh project,
with no distinguishable error. -/
theorem serverStatus_corrupt_defaults :
    serverReadState (FileContent.corrupt "bad json") (some cfgTdd) =
      { currentMode := "idle", history := [] } ∧
    serverGetStatus (FileContent.corrupt "bad json") (some cfgTdd) =
      serverGetStatus FileContent.absent (some cfgTdd) :=
  ⟨rfl, rfl⟩

/-! ## Lemmas about the config loader -/

/-- A mode whose raw transitions parse contains no missing-constraint
entry. -/
theorem parseTransitions_ok_no_missing :
    ∀ (modeName : String) (items : List RawTransItem) (ts : List ModeTransition),
      parseTransitions modeName items = Except.ok ts →
      ∀ item ∈ items, ∀ target : String, item ≠ RawTransItem.obj (some target) none := by
  intro modeName items
  induction items with
  | nil => intro ts h item hmem; exact absurd hmem (List.not_mem_nil item)
  | cons a rest ih =>
    intro ts h item hmem target
    cases a with
    | nonObj =>
      rcases List.mem_cons.mp hmem with heq | hmem2
      · subst heq; intro hcon; exact RawTransItem.noConfusion hcon
      · exact ih ts (by simpa [parseTransitions] using h) item hmem2 target
    | obj o c =>
      cases o with
      | none => simp [parseTransitions] at h
      | some tg =>
        cases c with
        | none => simp [parseTransitions] at h
        | some ctext =>
          rcases List.mem_cons.mp hmem with heq | hmem2
          · subst heq
            intro hcon
            injection hcon with _ hc
            exact Option.noConfusion hc
          · rw [parseTransitions] at h
            cases hrest : parseTransitions modeName rest with
            | error e => rw [hrest] at h; exact absurd h (by simp)
            | ok ts2 => exact ih ts2 hrest item hmem2 target

/-- Every mode of a document whose states parse has parseable
transitions. -/
theorem parseStates_ok_each :
    ∀ (l : List (String × RawMode)) (states : List (String × ModeConfig)),
      parseStates l = Except.ok states →
      ∀ p ∈ l, ∃ ts, parseTransitions p.1 (p.2.transitions.getD []) = Except.ok ts := by
  intro l
  induction l with
  | nil => intro states h p hmem; exact absurd hmem (List.not_mem_nil p)
  | cons a rest ih =>
    intro states h p hmem
    obtain ⟨modeName, modeData⟩ := a
    rw [parseStates] at h
    cases ht : parseTransitions modeName (modeData.transitions.getD []) with
    | error e => rw [ht] at h; exact absurd h (by simp)
    | ok ts =>
      rw [ht] at h
      cases hrest : parseStates rest with
      | error e => rw [hrest] at h; exact absurd h (by simp)
      | ok others =>
        rcases List.mem_cons.mp hmem with heq | hmem2
        · subst heq; exact ⟨ts, ht⟩
        · exact ih others hrest p hmem2

/-- Claim C7 (amended): a successfully loaded document has no transition
with a missing constraint — a missing constraint is a hard failure naming
the offending mode — while a present but blank constraint is accepted
after trimming, so loading can succeed with an empty constraint string. -/
theorem validateModes_missing_constraint_fails :
    (∀ (doc : ModesDoc) (cfg : WorkflowConfig), validateModes doc = Except.ok cfg →
      ∀ p ∈ doc.modes.getD [], ∀ item ∈ p.2.transitions.getD [], ∀ target : String,
        item ≠ RawTransItem.obj (some target) none) ∧
    (∀ (modeName target : String) (rest : List RawTransItem),
      parseTransitions modeName (RawTransItem.obj (some target) none :: rest) =
        Except.error ("Invalid transition in mode '" ++ modeName ++
          "': missing 'constraint' field")) := by
  constructor
  · intro doc cfg h p hp item hitem target
    obtain ⟨dname, ddefault, dmodes⟩ := doc
    simp only [validateModes] at h
    simp only at hp
    cases dname with
    | none => exact absurd h (by simp)
    | some nm =>
    cases ddefault with
    | none => exact absurd h (by simp)
    | some dflt =>
    cases dmodes with
    | none => exact absurd h (by simp)
    | some modesObj =>
    simp only [Option.getD_some] at hp
    simp only at h
    split at h
    · cases hps : parseStates modesObj with
      | error e => rw [hps] at h; exact absurd h (by simp)
      | ok states =>
        obtain ⟨ts, hts⟩ := parseStates_ok_each modesObj states hps p hp
        exact parseTransitions_ok_no_missing p.1 (p.2.transitions.getD []) ts hts item hitem target
    · exact absurd h (by simp)
  · intro modeName target rest
    rfl

/-- Counterexample for C7 as stated: a whitespace-only constraint is
accepted — loading succeeds and stores the empty constraint string. -/
theorem validateModes_accepts_blank_constraint :
    validateModes blankConstraintDoc =
      Except.ok
        { initial := "idle",
          states := [("idle", { name := "idle",
                                transitions := [{ «to» := "idle", constraint := "" }] })] } :=
  rfl

/-- Witness for C7: the missing-constraint failure at a concrete mode. -/
theorem validateModes_missing_constraint_fails_witness :
    parseTransitions "idle" [RawTransItem.obj (some "test-dev") none] =
      Except.error "Invalid transition in mode 'idle': missing 'constraint' field" :=
  validateModes_missing_constraint_fails.2 "idle" "test-dev" []

/-- `parseStates` keeps the mode names, in order. -/
theorem parseStates_keys :
    ∀ (l : List (String × RawMode)) (states : List (String × ModeConfig)),
      parseStates l = Except.ok states →
      states.map Prod.fst = l.map Prod.fst := by
  intro l
  induction l with
  | nil =>
    intro states h
    rw [parseStates] at h
    injection h with h
    rw [← h]
    rfl
  | cons a rest ih =>
    intro states h
    obtain ⟨modeName, modeData⟩ := a
    rw [parseStates] at h
    cases ht : parseTransitions modeName (modeData.transitions.getD []) with
    | error e => rw [ht] at h; exact absurd h (by simp)
    | ok ts =>
      rw [ht] at h
      cases hrest : parseStates rest with
      | error e => rw [hrest] at h; exact absurd h (by simp)
      | ok others =>
        rw [hrest] at h
        injection h with h
        rw [← h]
        simp [ih others hrest]

/-- A key that `contains` finds in the key list has a `lookup` hit. -/
theorem lookup_isSome_of_contains :
    ∀ {β : Type} (l : List (String × β)) (a : String),
      (l.map Prod.fst).contains a = true → (l.lookup a).isSome = true := by
  intro β l a h
  induction l with
  | nil => exact absurd h (by simp)
  | cons kv rest ih =>
    obtain ⟨k, v⟩ := kv
    rw [List.lookup]
    by_cases hk : a == k
    · rw [hk]; rfl
    · rw [Bool.not_eq_true] at hk
      rw [hk]
      apply ih
      simp only [List.map_cons, List.contains_cons] at h
      rcases Bool.or_eq_true_iff.mp h with heq | hrest
      · exact absurd heq (by simp [hk])
      · exact hrest

/-- A passed referential check means every transition target of every
listed mode resolves in the states map. -/
theorem checkTargets_ok :
    ∀ (states l : List (String × ModeConfig)),
      checkTargets states l = Except.ok () →
      ∀ p ∈ l, ∀ t ∈ p.2.transitions, (states.lookup t.to).isSome = true := by
  intro states l
  induction l with
  | nil => intro h p hmem; exact absurd hmem (List.not_mem_nil p)
  | cons a rest ih =>
    intro h p hmem t hmt
    obtain ⟨modeName, mc⟩ := a
    rw [checkTargets] at h
    cases hf : mc.transitions.find? (fun t => (states.lookup t.to).isNone) with
    | some t2 => rw [hf] at h; exact absurd h (by simp)
    | none =>
      rw [hf] at h
      rcases List.mem_cons.mp hmem with heq | hmem2
      · subst heq
        have := List.find?_eq_none.mp hf t hmt
        simpa [Option.isNone_iff_eq_none, Option.isSome_iff_ne_none] using this
      · exact ih h p hmem2 t hmt

/-- Claim C8: a config that loads successfully satisfies the invariant:
the initial mode is a key of the states map, and every declared
transition target of every mode resolves to a key of the states map. -/
theorem validateModes_invariant :
    ∀ (doc : ModesDoc) (cfg : WorkflowConfig), validateModes doc = Except.ok cfg →
      (cfg.states.lookup cfg.initial).isSome = true ∧
      ∀ p ∈ cfg.states, ∀ t ∈ p.2.transitions, (cfg.states.lookup t.to).isSome = true := by
  intro doc cfg h
  obtain ⟨dname, ddefault, dmodes⟩ := doc
  simp only [validateModes] at h
  cases dname with
  | none => exact absurd h (by simp)
  | some nm =>
  cases ddefault with
  | none => exact absurd h (by simp)
  | some dflt =>
  cases dmodes with
  | none => exact absurd h (by simp)
  | some modesObj =>
  simp only at h
  split at h
  · rename_i hcont
    cases hps : parseStates modesObj with
    | error e => rw [hps] at h; exact absurd h (by simp)
    | ok states =>
      rw [hps] at h
      simp only at h
      cases hct : checkTargets states states with
      | error e => rw [hct] at h; exact absurd h (by simp)
      | ok u =>
        rw [hct] at h
        simp only [Except.ok.injEq] at h
        subst h
        constructor
        · apply lookup_isSome_of_contains
          rw [parseStates_keys modesObj states hps]
          exact hcont
        · exact checkTargets_ok states states hct
  · exact absurd h (by simp)

/-- Witness for C8 on the TDD document: it loads, its initial mode
resolves, and the test-dev mode's first target resolves. -/
theorem validateModes_invariant_witness :
    (cfgTdd.states.lookup cfgTdd.initial).isSome = true ∧
    (cfgTdd.states.lookup "feature-dev").isSome = true :=
  ⟨(validateModes_invariant tddDoc cfgTdd rfl).1, by decide⟩
